import Mathlib

/-!
Verification development for `samples/bpf/xdp_redirect_cpu_user.c` (prototype-kernel).

The embedding models the statistics core of the program:
* `u64` values are `Nat` with wraparound made explicit via `% 2^64` (`u64sub`, `sumWrap`);
* the C `double` period is modelled as `ℚ` with exact arithmetic;
* calls to `exit(code)` (in `gettime` and the allocators) are modelled as
  `Except.error code`; normal returns are `Except.ok`;
* the BPF map lookups (`bpf_map_lookup_elem`) are modelled as an input
  `Option (List datarec)`: `none` models a failed lookup, `some values` a
  successful one returning one `datarec` per possible CPU;
* `printf` output of `stats_print` is modelled as a list of structured `Row`
  values carrying exactly the arguments the C code passes to `printf`; the
  literal string `"(nan)"` printed in the drop-pps column of the XDP-RX rows
  is modelled by the constructor `DropCol.nanText`.
-/

/-- MAX_CPUS from the C source (`#define MAX_CPUS 12`). -/
def MAX_CPUS : Nat := 12

/-- NANOSEC_PER_SEC from the C source (`#define NANOSEC_PER_SEC 1000000000`). -/
def NANOSEC_PER_SEC : Nat := 1000000000

/-- The modulus of unsigned 64-bit arithmetic. -/
def U64 : Nat := 2 ^ 64

theorem U64_eq : U64 = 18446744073709551616 := by norm_num [U64]

/-- Exit code EXIT_OK from the C source. -/
def EXIT_OK : Nat := 0

/-- Exit code EXIT_FAIL from the C source. -/
def EXIT_FAIL : Nat := 1

/-- Exit code EXIT_FAIL_MEM from the C source. -/
def EXIT_FAIL_MEM : Nat := 5

/-- Unsigned 64-bit subtraction `a - b` (wraps modulo `2^64`), as performed by
the C expressions `r->timestamp - p->timestamp` and `r->processed - p->processed`. -/
def u64sub (a b : Nat) : Nat := (a + (U64 - b % U64)) % U64

/-- Unsigned 64-bit accumulation step, as performed by the C `+=` on the
`__u64` local accumulators in `map_collect_percpu`. -/
def sumWrap (acc v : Nat) : Nat := (acc + v) % U64

/-- `struct datarec` from the C source. -/
structure datarec where
  processed : Nat
  dropped : Nat
deriving DecidableEq

/-- `struct record` from the C source. -/
structure record where
  timestamp : Nat
  total : datarec
  cpu : List datarec
deriving DecidableEq

/-- A zeroed `record` with no per-CPU array, used as the `getD` default when
indexing lists of records. -/
def record.nil : record := ⟨0, ⟨0, 0⟩, []⟩

/-- `struct stats_record` from the C source. -/
structure stats_record where
  rx_cnt : record
  redir_err : record
  kthread : record
  enq : List record
deriving DecidableEq

/-- `gettime` from the C source: returns the monotonic clock in nanoseconds;
if `clock_gettime` fails it calls `exit(EXIT_FAIL)`, modelled as
`Except.error EXIT_FAIL`.  The input `clock` is the clock reading offered by
the environment (`none` models a failing `clock_gettime`). -/
def gettime (clock : Option Nat) : Except Nat Nat :=
  match clock with
  | none => Except.error EXIT_FAIL
  | some t => Except.ok t

/-- `map_collect_percpu` from the C source.  A failed `bpf_map_lookup_elem`
(`lookup = none`) logs and returns `false` with the record untouched.  On
success the timestamp is taken (note `gettime` can `exit`), the per-CPU values
are copied into `rec.cpu`, and `total` is the wrapped u64 sum. -/
def map_collect_percpu (lookup : Option (List datarec)) (clock : Option Nat)
    (rec_ : record) : Except Nat (Bool × record) :=
  match lookup with
  | none => Except.ok (false, rec_)
  | some values =>
    match gettime clock with
    | Except.error e => Except.error e
    | Except.ok ts =>
      Except.ok (true,
        { timestamp := ts,
          total := ⟨(values.map datarec.processed).foldl sumWrap 0,
                    (values.map datarec.dropped).foldl sumWrap 0⟩,
          cpu := values })

/-- `calc_period` from the C source: u64 timestamp difference, converted to
seconds as a `double` (modelled exactly in `ℚ`); `0` when the difference is 0. -/
def calc_period (r p : record) : ℚ :=
  let period := u64sub r.timestamp p.timestamp
  if 0 < period then (period : ℚ) / (NANOSEC_PER_SEC : ℚ) else 0

/-- `calc_pps` from the C source: when the period is positive, the u64 delta of
`processed` divided by the period, truncated back to u64 (floor); else 0. -/
def calc_pps (r p : datarec) (period_ : ℚ) : Nat :=
  if 0 < period_ then
    (⌊((u64sub r.processed p.processed : Nat) : ℚ) / period_⌋).toNat
  else 0

/-- `calc_drop_pps` from the C source: the same formula as `calc_pps` applied
to the `dropped` field. -/
def calc_drop_pps (r p : datarec) (period_ : ℚ) : Nat :=
  if 0 < period_ then
    (⌊((u64sub r.dropped p.dropped : Nat) : ℚ) / period_⌋).toNat
  else 0

section SanityChecks

example : u64sub 5 3 = 2 := by decide
example : u64sub 3 5 = U64 - 2 := by decide
example : u64sub 7 7 = 0 := by decide

end SanityChecks

/- ### Basic arithmetic lemmas about the embedded operations -/

theorem u64sub_self (a : Nat) : u64sub a a = 0 := by
  simp only [u64sub, U64_eq]
  omega

theorem u64sub_of_le {a b : Nat} (h1 : b ≤ a) (h2 : a < U64) : u64sub a b = a - b := by
  simp only [u64sub, U64_eq] at *
  omega

theorem u64sub_of_lt {a b : Nat} (h1 : a < b) (h2 : b < U64) :
    u64sub a b = U64 - (b - a) := by
  simp only [u64sub, U64_eq] at *
  omega

theorem calc_pps_nonpos (r p : datarec) {period_ : ℚ} (h : period_ ≤ 0) :
    calc_pps r p period_ = 0 := by
  simp [calc_pps, not_lt.mpr h]

theorem calc_drop_pps_nonpos (r p : datarec) {period_ : ℚ} (h : period_ ≤ 0) :
    calc_drop_pps r p period_ = 0 := by
  simp [calc_drop_pps, not_lt.mpr h]

theorem calc_period_nonneg (r p : record) : 0 ≤ calc_period r p := by
  simp only [calc_period]
  split
  · positivity
  · exact le_refl 0

theorem calc_period_self (r : record) : calc_period r r = 0 := by
  simp [calc_period, u64sub_self]

theorem calc_pps_one {r p : datarec} (h1 : p.processed ≤ r.processed)
    (h2 : r.processed < U64) : calc_pps r p 1 = r.processed - p.processed := by
  rw [calc_pps, if_pos one_pos, u64sub_of_le h1 h2, div_one, Int.floor_natCast,
    Int.toNat_natCast]

theorem foldl_sumWrap_mod (l : List Nat) :
    ∀ a : Nat, l.foldl sumWrap a % U64 = (a + l.sum) % U64 := by
  induction l with
  | nil => intro a; simp
  | cons x xs ih =>
    intro a
    simp only [List.foldl_cons, List.sum_cons, sumWrap]
    rw [ih, Nat.mod_add_mod]
    ring_nf

theorem foldl_sumWrap_lt (l : List Nat) :
    ∀ a : Nat, a < U64 → l.foldl sumWrap a < U64 := by
  induction l with
  | nil => intro a h; simpa using h
  | cons x xs ih =>
    intro a h
    simp only [List.foldl_cons, sumWrap]
    exact ih _ (Nat.mod_lt _ (by rw [U64_eq]; omega))

theorem foldl_sumWrap_eq_sum_mod (l : List Nat) :
    l.foldl sumWrap 0 = l.sum % U64 := by
  have h1 := foldl_sumWrap_mod l 0
  have h2 := foldl_sumWrap_lt l 0 (by rw [U64_eq]; omega)
  rw [Nat.mod_eq_of_lt h2] at h1
  simpa using h1

/- ### The reporter (`stats_print`) -/

/-- The drop-pps column of a printed row: the XDP-RX rows print the literal
string `"(nan)"` there (modelled by `nanText`); the other blocks print a
computed drop rate. -/
inductive DropCol where
  | nanText : DropCol
  | rate : Nat → DropCol
deriving DecidableEq

/-- One line printed by `stats_print`, carrying the arguments the C code
passes to `printf`: block label (the constructor), CPU / target ids, the pps
value, the drop-pps column and the period in seconds. -/
inductive Row where
  | header : Row
  | rxCpu (cpu pps : Nat) (drop : DropCol) (t : ℚ) : Row
  | rxTotal (pps : Nat) (drop : DropCol) (t : ℚ) : Row
  | enqCpu (cpu to_cpu pps : Nat) (drop : DropCol) (t : ℚ) : Row
  | enqTotal (to_cpu pps : Nat) (drop : DropCol) (t : ℚ) : Row
  | kthreadCpu (cpu pps : Nat) (drop : DropCol) (t : ℚ) : Row
  | kthreadTotal (pps : Nat) (drop : DropCol) (t : ℚ) : Row
  | errCpu (cpu pps : Nat) (drop : DropCol) (t : ℚ) : Row
  | errTotal (pps : Nat) (drop : DropCol) (t : ℚ) : Row
deriving DecidableEq

/-- The period local `t` of the XDP-RX block of `stats_print`. -/
def rxPeriod (c p : stats_record) : ℚ := calc_period c.rx_cnt p.rx_cnt

/-- The per-CPU `pps` local of the XDP-RX block of `stats_print`. -/
def rxCpuPps (c p : stats_record) (i : Nat) : Nat :=
  calc_pps (c.rx_cnt.cpu.getD i ⟨0, 0⟩) (p.rx_cnt.cpu.getD i ⟨0, 0⟩) (rxPeriod c p)

/-- The total `pps` of the XDP-RX block of `stats_print`. -/
def rxTotalPps (c p : stats_record) : Nat :=
  calc_pps c.rx_cnt.total p.rx_cnt.total (rxPeriod c p)

/-- The XDP-RX block of `stats_print`: one row per CPU with nonzero pps,
then an unconditional total row; the drop column is the literal `"(nan)"`. -/
def rx_block (nr_cpus : Nat) (c p : stats_record) : List Row :=
  ((List.range nr_cpus).filterMap fun i =>
    if 0 < rxCpuPps c p i then
      some (Row.rxCpu i (rxCpuPps c p i) DropCol.nanText (rxPeriod c p))
    else none)
  ++ [Row.rxTotal (rxTotalPps c p) DropCol.nanText (rxPeriod c p)]

/-- The period local `t` of the cpumap-enqueue block for target `to_cpu`. -/
def enqPeriod (c p : stats_record) (to_cpu : Nat) : ℚ :=
  calc_period (c.enq.getD to_cpu record.nil) (p.enq.getD to_cpu record.nil)

/-- The per-CPU `pps` local of the cpumap-enqueue block for target `to_cpu`. -/
def enqCpuPps (c p : stats_record) (to_cpu i : Nat) : Nat :=
  calc_pps ((c.enq.getD to_cpu record.nil).cpu.getD i ⟨0, 0⟩)
    ((p.enq.getD to_cpu record.nil).cpu.getD i ⟨0, 0⟩) (enqPeriod c p to_cpu)

/-- The per-CPU `drop` local of the cpumap-enqueue block for target `to_cpu`. -/
def enqCpuDrop (c p : stats_record) (to_cpu i : Nat) : Nat :=
  calc_drop_pps ((c.enq.getD to_cpu record.nil).cpu.getD i ⟨0, 0⟩)
    ((p.enq.getD to_cpu record.nil).cpu.getD i ⟨0, 0⟩) (enqPeriod c p to_cpu)

/-- The total `pps` of the cpumap-enqueue block for target `to_cpu`. -/
def enqTotalPps (c p : stats_record) (to_cpu : Nat) : Nat :=
  calc_pps (c.enq.getD to_cpu record.nil).total (p.enq.getD to_cpu record.nil).total
    (enqPeriod c p to_cpu)

/-- The total `drop` of the cpumap-enqueue block for target `to_cpu`. -/
def enqTotalDrop (c p : stats_record) (to_cpu : Nat) : Nat :=
  calc_drop_pps (c.enq.getD to_cpu record.nil).total (p.enq.getD to_cpu record.nil).total
    (enqPeriod c p to_cpu)

/-- The cpumap-enqueue block of `stats_print` for one redirect target:
one row per source CPU with nonzero pps, then the target's total row, emitted
only when the total pps is nonzero. -/
def enq_block_for (nr_cpus : Nat) (c p : stats_record) (to_cpu : Nat) : List Row :=
  ((List.range nr_cpus).filterMap fun i =>
    if 0 < enqCpuPps c p to_cpu i then
      some (Row.enqCpu i to_cpu (enqCpuPps c p to_cpu i)
        (DropCol.rate (enqCpuDrop c p to_cpu i)) (enqPeriod c p to_cpu))
    else none)
  ++ (if 0 < enqTotalPps c p to_cpu then
        [Row.enqTotal to_cpu (enqTotalPps c p to_cpu)
          (DropCol.rate (enqTotalDrop c p to_cpu)) (enqPeriod c p to_cpu)]
      else [])

/-- All cpumap-enqueue blocks, in ascending target order
(`for (to_cpu = 0; to_cpu < MAX_CPUS; to_cpu++)`). -/
def enq_block (nr_cpus : Nat) (c p : stats_record) : List Row :=
  (List.range MAX_CPUS).flatMap (enq_block_for nr_cpus c p)

/-- The period local `t` of the cpumap-kthread block of `stats_print`. -/
def ktPeriod (c p : stats_record) : ℚ := calc_period c.kthread p.kthread

/-- The per-CPU `pps` local of the cpumap-kthread block. -/
def ktCpuPps (c p : stats_record) (i : Nat) : Nat :=
  calc_pps (c.kthread.cpu.getD i ⟨0, 0⟩) (p.kthread.cpu.getD i ⟨0, 0⟩) (ktPeriod c p)

/-- The per-CPU `drop` local of the cpumap-kthread block. -/
def ktCpuDrop (c p : stats_record) (i : Nat) : Nat :=
  calc_drop_pps (c.kthread.cpu.getD i ⟨0, 0⟩) (p.kthread.cpu.getD i ⟨0, 0⟩) (ktPeriod c p)

/-- The total `pps` of the cpumap-kthread block. -/
def ktTotalPps (c p : stats_record) : Nat :=
  calc_pps c.kthread.total p.kthread.total (ktPeriod c p)

/-- The total `drop` of the cpumap-kthread block. -/
def ktTotalDrop (c p : stats_record) : Nat :=
  calc_drop_pps c.kthread.total p.kthread.total (ktPeriod c p)

/-- The cpumap-kthread block of `stats_print`: one row per CPU with nonzero
pps, then an unconditional total row. -/
def kthread_block (nr_cpus : Nat) (c p : stats_record) : List Row :=
  ((List.range nr_cpus).filterMap fun i =>
    if 0 < ktCpuPps c p i then
      some (Row.kthreadCpu i (ktCpuPps c p i) (DropCol.rate (ktCpuDrop c p i)) (ktPeriod c p))
    else none)
  ++ [Row.kthreadTotal (ktTotalPps c p) (DropCol.rate (ktTotalDrop c p)) (ktPeriod c p)]

/-- The period local `t` of the redirect_err block of `stats_print`. -/
def errPeriod (c p : stats_record) : ℚ := calc_period c.redir_err p.redir_err

/-- The per-CPU `pps` local of the redirect_err block. -/
def errCpuPps (c p : stats_record) (i : Nat) : Nat :=
  calc_pps (c.redir_err.cpu.getD i ⟨0, 0⟩) (p.redir_err.cpu.getD i ⟨0, 0⟩) (errPeriod c p)

/-- The per-CPU `drop` local of the redirect_err block. -/
def errCpuDrop (c p : stats_record) (i : Nat) : Nat :=
  calc_drop_pps (c.redir_err.cpu.getD i ⟨0, 0⟩) (p.redir_err.cpu.getD i ⟨0, 0⟩) (errPeriod c p)

/-- The total `pps` of the redirect_err block. -/
def errTotalPps (c p : stats_record) : Nat :=
  calc_pps c.redir_err.total p.redir_err.total (errPeriod c p)

/-- The total `drop` of the redirect_err block. -/
def errTotalDrop (c p : stats_record) : Nat :=
  calc_drop_pps c.redir_err.total p.redir_err.total (errPeriod c p)

/-- The redirect_err block of `stats_print`: one row per CPU with nonzero
pps, then an unconditional total row. -/
def err_block (nr_cpus : Nat) (c p : stats_record) : List Row :=
  ((List.range nr_cpus).filterMap fun i =>
    if 0 < errCpuPps c p i then
      some (Row.errCpu i (errCpuPps c p i) (DropCol.rate (errCpuDrop c p i)) (errPeriod c p))
    else none)
  ++ [Row.errTotal (errTotalPps c p) (DropCol.rate (errTotalDrop c p)) (errPeriod c p)]

/-- `stats_print` from the C source: header line, then the XDP-RX block, the
cpumap-enqueue blocks in ascending target order, the cpumap-kthread block and
the redirect_err block, in this fixed order. -/
def stats_print (nr_cpus : Nat) (stats_rec stats_prev : stats_record) : List Row :=
  Row.header ::
    (rx_block nr_cpus stats_rec stats_prev
      ++ enq_block nr_cpus stats_rec stats_prev
      ++ kthread_block nr_cpus stats_rec stats_prev
      ++ err_block nr_cpus stats_rec stats_prev)

/- ### The collector (`stats_collect`) and the poll loop -/

/-- The four counter tables read by `stats_collect`, identifying the
`(map_fd, key)` pairs used in the C source: `rx_cnt` (key 0),
`redirect_err_cnt` (key 1), `cpumap_enqueue_cnt` (keys `0..MAX_CPUS-1`) and
`cpumap_kthread_cnt` (key 0). -/
inductive Table where
  | rx : Table
  | redirErr : Table
  | enq : Nat → Table
  | kthread : Table
deriving DecidableEq

/-- The `for (i = 0; i < MAX_CPUS; i++) map_collect_percpu(fd, i, &rec->enq[i])`
loop of `stats_collect`, walking the `enq` records with the running key `i`. -/
def collect_enq (src : Table → Option (List datarec)) (clock : Table → Option Nat) :
    Nat → List record → Except Nat (List record)
  | _, [] => Except.ok []
  | i, r :: rs =>
    match map_collect_percpu (src (Table.enq i)) (clock (Table.enq i)) r with
    | Except.error e => Except.error e
    | Except.ok x =>
      match collect_enq src clock (i + 1) rs with
      | Except.error e => Except.error e
      | Except.ok xs => Except.ok (x.2 :: xs)

/-- `stats_collect` from the C source: collects the four tables in sequence.
The boolean result of each `map_collect_percpu` is ignored (a failed lookup
leaves that record stale and collection proceeds); only an `exit` inside
`gettime` aborts. -/
def stats_collect (src : Table → Option (List datarec)) (clock : Table → Option Nat)
    (rec_ : stats_record) : Except Nat stats_record :=
  match map_collect_percpu (src Table.rx) (clock Table.rx) rec_.rx_cnt with
  | Except.error e => Except.error e
  | Except.ok rx =>
    match map_collect_percpu (src Table.redirErr) (clock Table.redirErr) rec_.redir_err with
    | Except.error e => Except.error e
    | Except.ok re =>
      match collect_enq src clock 0 rec_.enq with
      | Except.error e => Except.error e
      | Except.ok enq1 =>
        match map_collect_percpu (src Table.kthread) (clock Table.kthread) rec_.kthread with
        | Except.error e => Except.error e
        | Except.ok kt => Except.ok ⟨rx.2, re.2, kt.2, enq1⟩

/-- `alloc_record_per_cpu` from the C source: allocates and zeroes one
`datarec` per possible CPU; on allocation failure the process exits with
`EXIT_FAIL_MEM`.  (In the C the `memset` precedes the NULL check, which is
undefined behavior on a failed `malloc`; the embedding models the outcome of
the explicit check, `exit(EXIT_FAIL_MEM)`.) -/
def alloc_record_per_cpu (nr_cpus : Nat) (allocOk : Bool) : Except Nat (List datarec) :=
  if allocOk then Except.ok (List.replicate nr_cpus ⟨0, 0⟩)
  else Except.error EXIT_FAIL_MEM

/-- `alloc_stats_record` from the C source: allocates the zeroed
`stats_record` and one per-CPU array for each of the `3 + MAX_CPUS` records. -/
def alloc_stats_record (nr_cpus : Nat) (allocOk : Bool) : Except Nat stats_record :=
  match alloc_record_per_cpu nr_cpus allocOk with
  | Except.error e => Except.error e
  | Except.ok rx =>
    match alloc_record_per_cpu nr_cpus allocOk with
    | Except.error e => Except.error e
    | Except.ok re =>
      match alloc_record_per_cpu nr_cpus allocOk with
      | Except.error e => Except.error e
      | Except.ok kt =>
        match (List.range MAX_CPUS).mapM (fun _ => alloc_record_per_cpu nr_cpus allocOk) with
        | Except.error e => Except.error e
        | Except.ok enqArrays =>
          Except.ok ⟨⟨0, ⟨0, 0⟩, rx⟩, ⟨0, ⟨0, 0⟩, re⟩, ⟨0, ⟨0, 0⟩, kt⟩,
            enqArrays.map (fun a => ⟨0, ⟨0, 0⟩, a⟩)⟩

/-- `swap` from the C source (the pointer-swap trick): given the two buffer
references `(a, b)` it returns them exchanged. -/
def swap (a b : stats_record) : stats_record × stats_record :=
  let tmp := a
  (b, tmp)

/-- One iteration of the `while (1)` body of `stats_poll`, on the state
`(record, prev)`: `swap(&prev, &record)`, `stats_collect(record)`,
`stats_print(record, prev)`.  Returns the printed rows and the next state. -/
def stats_poll_step (nr_cpus : Nat) (src : Table → Option (List datarec))
    (clock : Table → Option Nat) (st : stats_record × stats_record) :
    Except Nat (List Row × (stats_record × stats_record)) :=
  let swapped := swap st.2 st.1
  match stats_collect src clock swapped.2 with
  | Except.error e => Except.error e
  | Except.ok rec1 => Except.ok (stats_print nr_cpus rec1 swapped.1, (rec1, swapped.1))

/-- Read one table's record out of a `stats_record`. -/
def tgetD : Table → stats_record → record
  | Table.rx, s => s.rx_cnt
  | Table.redirErr, s => s.redir_err
  | Table.kthread, s => s.kthread
  | Table.enq i, s => s.enq.getD i record.nil

/- ### Membership characterizations of the report blocks -/

theorem mem_rx_block (n : Nat) (c p : stats_record) (row : Row) :
    row ∈ rx_block n c p ↔
      ((∃ i, i < n ∧ 0 < rxCpuPps c p i ∧
          row = Row.rxCpu i (rxCpuPps c p i) DropCol.nanText (rxPeriod c p))
        ∨ row = Row.rxTotal (rxTotalPps c p) DropCol.nanText (rxPeriod c p)) := by
  simp only [rx_block, List.mem_append, List.mem_filterMap, List.mem_range,
    List.mem_singleton]
  constructor
  · rintro (⟨i, hi, hf⟩ | h)
    · by_cases hp : 0 < rxCpuPps c p i
      · rw [if_pos hp] at hf
        exact Or.inl ⟨i, hi, hp, (Option.some_inj.mp hf).symm⟩
      · rw [if_neg hp] at hf
        exact absurd hf (by simp)
    · exact Or.inr h
  · rintro (⟨i, hi, hp, hrow⟩ | h)
    · exact Or.inl ⟨i, hi, by rw [if_pos hp, hrow]⟩
    · exact Or.inr h

theorem mem_enq_block_for (n : Nat) (c p : stats_record) (tc : Nat) (row : Row) :
    row ∈ enq_block_for n c p tc ↔
      ((∃ i, i < n ∧ 0 < enqCpuPps c p tc i ∧
          row = Row.enqCpu i tc (enqCpuPps c p tc i)
            (DropCol.rate (enqCpuDrop c p tc i)) (enqPeriod c p tc))
        ∨ (0 < enqTotalPps c p tc ∧
            row = Row.enqTotal tc (enqTotalPps c p tc)
              (DropCol.rate (enqTotalDrop c p tc)) (enqPeriod c p tc))) := by
  simp only [enq_block_for, List.mem_append, List.mem_filterMap, List.mem_range]
  constructor
  · rintro (⟨i, hi, hf⟩ | h)
    · by_cases hp : 0 < enqCpuPps c p tc i
      · rw [if_pos hp] at hf
        exact Or.inl ⟨i, hi, hp, (Option.some_inj.mp hf).symm⟩
      · rw [if_neg hp] at hf
        exact absurd hf (by simp)
    · by_cases hp : 0 < enqTotalPps c p tc
      · rw [if_pos hp] at h
        exact Or.inr ⟨hp, by simpa using h⟩
      · rw [if_neg hp] at h
        exact absurd h (by simp)
  · rintro (⟨i, hi, hp, hrow⟩ | ⟨hp, hrow⟩)
    · exact Or.inl ⟨i, hi, by rw [if_pos hp, hrow]⟩
    · exact Or.inr (by rw [if_pos hp, hrow]; exact List.mem_singleton.mpr rfl)

theorem mem_enq_block (n : Nat) (c p : stats_record) (row : Row) :
    row ∈ enq_block n c p ↔ ∃ tc, tc < MAX_CPUS ∧ row ∈ enq_block_for n c p tc := by
  simp [enq_block, List.mem_flatMap, List.mem_range]

theorem mem_kthread_block (n : Nat) (c p : stats_record) (row : Row) :
    row ∈ kthread_block n c p ↔
      ((∃ i, i < n ∧ 0 < ktCpuPps c p i ∧
          row = Row.kthreadCpu i (ktCpuPps c p i) (DropCol.rate (ktCpuDrop c p i)) (ktPeriod c p))
        ∨ row = Row.kthreadTotal (ktTotalPps c p) (DropCol.rate (ktTotalDrop c p)) (ktPeriod c p)) := by
  simp only [kthread_block, List.mem_append, List.mem_filterMap, List.mem_range,
    List.mem_singleton]
  constructor
  · rintro (⟨i, hi, hf⟩ | h)
    · by_cases hp : 0 < ktCpuPps c p i
      · rw [if_pos hp] at hf
        exact Or.inl ⟨i, hi, hp, (Option.some_inj.mp hf).symm⟩
      · rw [if_neg hp] at hf
        exact absurd hf (by simp)
    · exact Or.inr h
  · rintro (⟨i, hi, hp, hrow⟩ | h)
    · exact Or.inl ⟨i, hi, by rw [if_pos hp, hrow]⟩
    · exact Or.inr h

theorem mem_err_block (n : Nat) (c p : stats_record) (row : Row) :
    row ∈ err_block n c p ↔
      ((∃ i, i < n ∧ 0 < errCpuPps c p i ∧
          row = Row.errCpu i (errCpuPps c p i) (DropCol.rate (errCpuDrop c p i)) (errPeriod c p))
        ∨ row = Row.errTotal (errTotalPps c p) (DropCol.rate (errTotalDrop c p)) (errPeriod c p)) := by
  simp only [err_block, List.mem_append, List.mem_filterMap, List.mem_range,
    List.mem_singleton]
  constructor
  · rintro (⟨i, hi, hf⟩ | h)
    · by_cases hp : 0 < errCpuPps c p i
      · rw [if_pos hp] at hf
        exact Or.inl ⟨i, hi, hp, (Option.some_inj.mp hf).symm⟩
      · rw [if_neg hp] at hf
        exact absurd hf (by simp)
    · exact Or.inr h
  · rintro (⟨i, hi, hp, hrow⟩ | h)
    · exact Or.inl ⟨i, hi, by rw [if_pos hp, hrow]⟩
    · exact Or.inr h

theorem mem_stats_print (n : Nat) (c p : stats_record) (row : Row) :
    row ∈ stats_print n c p ↔
      (row = Row.header ∨ row ∈ rx_block n c p ∨ row ∈ enq_block n c p
        ∨ row ∈ kthread_block n c p ∨ row ∈ err_block n c p) := by
  simp [stats_print, List.mem_append, or_assoc]

/- ### Block ordering -/

/-- Position of a row's block in the fixed output order of `stats_print`:
header, XDP-RX, the enqueue blocks in ascending target order, cpumap-kthread,
redirect_err. -/
def blockIdx : Row → Nat
  | Row.header => 0
  | Row.rxCpu .. => 1
  | Row.rxTotal .. => 1
  | Row.enqCpu _ to_cpu .. => 2 + to_cpu
  | Row.enqTotal to_cpu .. => 2 + to_cpu
  | Row.kthreadCpu .. => 2 + MAX_CPUS
  | Row.kthreadTotal .. => 2 + MAX_CPUS
  | Row.errCpu .. => 3 + MAX_CPUS
  | Row.errTotal .. => 3 + MAX_CPUS

theorem blockIdx_rx_block {n : Nat} {c p : stats_record} {row : Row}
    (h : row ∈ rx_block n c p) : blockIdx row = 1 := by
  rcases (mem_rx_block n c p row).mp h with ⟨i, _, _, hrow⟩ | hrow <;>
    subst hrow <;> rfl

theorem blockIdx_enq_block_for {n : Nat} {c p : stats_record} {tc : Nat} {row : Row}
    (h : row ∈ enq_block_for n c p tc) : blockIdx row = 2 + tc := by
  rcases (mem_enq_block_for n c p tc row).mp h with ⟨i, _, _, hrow⟩ | ⟨_, hrow⟩ <;>
    subst hrow <;> rfl

theorem blockIdx_kthread_block {n : Nat} {c p : stats_record} {row : Row}
    (h : row ∈ kthread_block n c p) : blockIdx row = 2 + MAX_CPUS := by
  rcases (mem_kthread_block n c p row).mp h with ⟨i, _, _, hrow⟩ | hrow <;>
    subst hrow <;> rfl

theorem blockIdx_err_block {n : Nat} {c p : stats_record} {row : Row}
    (h : row ∈ err_block n c p) : blockIdx row = 3 + MAX_CPUS := by
  rcases (mem_err_block n c p row).mp h with ⟨i, _, _, hrow⟩ | hrow <;>
    subst hrow <;> rfl

theorem pairwise_of_forall_mem {l : List Row} {R : Row → Row → Prop}
    (h : ∀ a ∈ l, ∀ b ∈ l, R a b) : l.Pairwise R := by
  induction l with
  | nil => exact List.Pairwise.nil
  | cons x xs ih =>
    refine List.Pairwise.cons (fun b hb => h x (by simp) b (by simp [hb])) ?_
    exact ih fun a ha b hb => h a (by simp [ha]) b (by simp [hb])

theorem enq_block_pairwise (n : Nat) (c p : stats_record) :
    ∀ m, ((List.range m).flatMap (enq_block_for n c p)).Pairwise
      (fun a b => blockIdx a ≤ blockIdx b) := by
  intro m
  induction m with
  | zero => simp
  | succ k ih =>
    rw [List.range_succ, List.flatMap_append]
    refine List.pairwise_append.mpr ⟨ih, ?_, ?_⟩
    · refine pairwise_of_forall_mem fun a ha b hb => ?_
      simp only [List.flatMap_cons, List.flatMap_nil, List.append_nil] at ha hb
      rw [blockIdx_enq_block_for ha, blockIdx_enq_block_for hb]
    · intro a ha b hb
      simp only [List.flatMap_cons, List.flatMap_nil, List.append_nil] at hb
      rcases List.mem_flatMap.mp ha with ⟨tc, htc, hmem⟩
      rw [blockIdx_enq_block_for hmem, blockIdx_enq_block_for hb]
      have := List.mem_range.mp htc
      omega

theorem stats_print_ordered (n : Nat) (c p : stats_record) :
    ((stats_print n c p).map blockIdx).Pairwise (· ≤ ·) := by
  rw [List.pairwise_map]
  have henq_le : ∀ row ∈ enq_block n c p, blockIdx row ≤ 1 + MAX_CPUS := by
    intro row h
    rcases (mem_enq_block n c p row).mp h with ⟨tc, htc, hmem⟩
    rw [blockIdx_enq_block_for hmem]
    omega
  have henq_ge : ∀ row ∈ enq_block n c p, 2 ≤ blockIdx row := by
    intro row h
    rcases (mem_enq_block n c p row).mp h with ⟨tc, htc, hmem⟩
    rw [blockIdx_enq_block_for hmem]
    omega
  refine List.Pairwise.cons ?_ ?_
  · intro b hb
    show blockIdx Row.header ≤ blockIdx b
    simp [blockIdx]
  · refine List.pairwise_append.mpr ⟨?_, ?_, ?_⟩
    · refine List.pairwise_append.mpr ⟨?_, ?_, ?_⟩
      · refine List.pairwise_append.mpr ⟨?_, enq_block_pairwise n c p MAX_CPUS, ?_⟩
        · refine pairwise_of_forall_mem fun a ha b hb => ?_
          rw [blockIdx_rx_block ha, blockIdx_rx_block hb]
        · intro a ha b hb
          rw [blockIdx_rx_block ha]
          exact le_trans (by omega) (henq_ge b hb)
      · refine pairwise_of_forall_mem fun a ha b hb => ?_
        rw [blockIdx_kthread_block ha, blockIdx_kthread_block hb]
      · intro a ha b hb
        rw [blockIdx_kthread_block hb]
        rcases List.mem_append.mp ha with hr | he
        · rw [blockIdx_rx_block hr]; omega
        · have := henq_le a he; omega
    · refine pairwise_of_forall_mem fun a ha b hb => ?_
      rw [blockIdx_err_block ha, blockIdx_err_block hb]
    · intro a ha b hb
      rw [blockIdx_err_block hb]
      rcases List.mem_append.mp ha with ha2 | hk
      · rcases List.mem_append.mp ha2 with hr | he
        · rw [blockIdx_rx_block hr]; omega
        · have := henq_le a he; omega
      · rw [blockIdx_kthread_block hk]; omega

/- ### Collapse of blocks when current and previous inputs coincide -/

theorem filterMap_if_nil {n : Nat} {f : Nat → Row} {g : Nat → Nat}
    (hg : ∀ i, i < n → g i = 0) :
    (List.range n).filterMap (fun i => if 0 < g i then some (f i) else none) = [] := by
  rw [List.filterMap_eq_nil_iff]
  intro i hi
  rw [hg i (List.mem_range.mp hi)]
  simp

theorem rx_block_self (n : Nat) (s : stats_record) :
    rx_block n s s = [Row.rxTotal 0 DropCol.nanText 0] := by
  have hper : rxPeriod s s = 0 := calc_period_self _
  have hcpu : ∀ i, i < n → rxCpuPps s s i = 0 := fun i _ => by
    rw [rxCpuPps, hper]; exact calc_pps_nonpos _ _ le_rfl
  have htot : rxTotalPps s s = 0 := by
    rw [rxTotalPps, hper]; exact calc_pps_nonpos _ _ le_rfl
  rw [rx_block, filterMap_if_nil hcpu, htot, hper, List.nil_append]

theorem enq_block_for_self (n : Nat) (s : stats_record) (tc : Nat) :
    enq_block_for n s s tc = [] := by
  have hper : enqPeriod s s tc = 0 := calc_period_self _
  have hcpu : ∀ i, i < n → enqCpuPps s s tc i = 0 := fun i _ => by
    rw [enqCpuPps, hper]; exact calc_pps_nonpos _ _ le_rfl
  have htot : enqTotalPps s s tc = 0 := by
    rw [enqTotalPps, hper]; exact calc_pps_nonpos _ _ le_rfl
  rw [enq_block_for, filterMap_if_nil hcpu, htot]
  simp

theorem enq_block_self (n : Nat) (s : stats_record) : enq_block n s s = [] := by
  rw [enq_block, List.flatMap_eq_nil_iff]
  intro tc _
  exact enq_block_for_self n s tc

theorem kthread_block_self (n : Nat) (s : stats_record) :
    kthread_block n s s = [Row.kthreadTotal 0 (DropCol.rate 0) 0] := by
  have hper : ktPeriod s s = 0 := calc_period_self _
  have hcpu : ∀ i, i < n → ktCpuPps s s i = 0 := fun i _ => by
    rw [ktCpuPps, hper]; exact calc_pps_nonpos _ _ le_rfl
  have htot : ktTotalPps s s = 0 := by
    rw [ktTotalPps, hper]; exact calc_pps_nonpos _ _ le_rfl
  have hdrop : ktTotalDrop s s = 0 := by
    rw [ktTotalDrop, hper]; exact calc_drop_pps_nonpos _ _ le_rfl
  rw [kthread_block, filterMap_if_nil hcpu, htot, hdrop, hper, List.nil_append]

theorem err_block_self (n : Nat) (s : stats_record) :
    err_block n s s = [Row.errTotal 0 (DropCol.rate 0) 0] := by
  have hper : errPeriod s s = 0 := calc_period_self _
  have hcpu : ∀ i, i < n → errCpuPps s s i = 0 := fun i _ => by
    rw [errCpuPps, hper]; exact calc_pps_nonpos _ _ le_rfl
  have htot : errTotalPps s s = 0 := by
    rw [errTotalPps, hper]; exact calc_pps_nonpos _ _ le_rfl
  have hdrop : errTotalDrop s s = 0 := by
    rw [errTotalDrop, hper]; exact calc_drop_pps_nonpos _ _ le_rfl
  rw [err_block, filterMap_if_nil hcpu, htot, hdrop, hper, List.nil_append]

theorem stats_print_self (n : Nat) (s : stats_record) :
    stats_print n s s =
      [Row.header, Row.rxTotal 0 DropCol.nanText 0,
       Row.kthreadTotal 0 (DropCol.rate 0) 0, Row.errTotal 0 (DropCol.rate 0) 0] := by
  rw [stats_print, rx_block_self, enq_block_self, kthread_block_self, err_block_self]
  rfl

/- ### Inversion lemmas for the collector -/

theorem collect_enq_ok (src : Table → Option (List datarec)) (clock : Table → Option Nat) :
    ∀ (l : List record) (i : Nat) (l2 : List record),
      collect_enq src clock i l = Except.ok l2 →
      l2.length = l.length ∧
      ∀ j, j < l.length → ∃ flag,
        map_collect_percpu (src (Table.enq (i + j))) (clock (Table.enq (i + j)))
          (l.getD j record.nil) = Except.ok (flag, l2.getD j record.nil) := by
  intro l
  induction l with
  | nil =>
    intro i l2 h
    simp only [collect_enq] at h
    cases h
    exact ⟨rfl, by intro j hj; exact absurd hj (by simp)⟩
  | cons r rs ih =>
    intro i l2 h
    simp only [collect_enq] at h
    cases hm : map_collect_percpu (src (Table.enq i)) (clock (Table.enq i)) r with
    | error e => rw [hm] at h; exact absurd h (by simp)
    | ok x =>
      rw [hm] at h
      cases hc : collect_enq src clock (i + 1) rs with
      | error e => rw [hc] at h; exact absurd h (by simp)
      | ok xs =>
        rw [hc] at h
        cases h
        obtain ⟨hlen, hget⟩ := ih (i + 1) xs hc
        refine ⟨by simp [hlen], ?_⟩
        intro j hj
        cases j with
        | zero => exact ⟨x.1, by simpa using hm⟩
        | succ k =>
          have hk := hget k (by simpa [Nat.succ_lt_succ_iff] using hj)
          have harith : i + 1 + k = i + (k + 1) := by omega
          rw [harith] at hk
          simpa using hk

theorem stats_collect_ok {src : Table → Option (List datarec)} {clock : Table → Option Nat}
    {rec_ out : stats_record} (h : stats_collect src clock rec_ = Except.ok out) :
    ∃ rx re enq1 kt,
      map_collect_percpu (src Table.rx) (clock Table.rx) rec_.rx_cnt = Except.ok rx ∧
      map_collect_percpu (src Table.redirErr) (clock Table.redirErr) rec_.redir_err
        = Except.ok re ∧
      collect_enq src clock 0 rec_.enq = Except.ok enq1 ∧
      map_collect_percpu (src Table.kthread) (clock Table.kthread) rec_.kthread
        = Except.ok kt ∧
      out = ⟨rx.2, re.2, kt.2, enq1⟩ := by
  unfold stats_collect at h
  cases h1 : map_collect_percpu (src Table.rx) (clock Table.rx) rec_.rx_cnt with
  | error e => rw [h1] at h; exact absurd h (by simp)
  | ok rx =>
    rw [h1] at h
    cases h2 : map_collect_percpu (src Table.redirErr) (clock Table.redirErr) rec_.redir_err with
    | error e => rw [h2] at h; exact absurd h (by simp)
    | ok re =>
      rw [h2] at h
      cases h3 : collect_enq src clock 0 rec_.enq with
      | error e => rw [h3] at h; exact absurd h (by simp)
      | ok enq1 =>
        rw [h3] at h
        cases h4 : map_collect_percpu (src Table.kthread) (clock Table.kthread) rec_.kthread with
        | error e => rw [h4] at h; exact absurd h (by simp)
        | ok kt =>
          rw [h4] at h
          cases h
          exact ⟨rx, re, enq1, kt, rfl, rfl, rfl, rfl, rfl⟩

/-- A failed lookup leaves the record untouched and raises no error. -/
theorem map_collect_percpu_none (clock : Option Nat) (r : record) :
    map_collect_percpu none clock r = Except.ok (false, r) := rfl

/- ### Row-level membership characterizations of the full report -/

theorem rxCpu_mem_iff (n : Nat) (c p : stats_record) (i ppsv : Nat) (d : DropCol) (t : ℚ) :
    Row.rxCpu i ppsv d t ∈ stats_print n c p ↔
      (i < n ∧ 0 < rxCpuPps c p i ∧ ppsv = rxCpuPps c p i ∧ d = DropCol.nanText
        ∧ t = rxPeriod c p) := by
  rw [mem_stats_print, mem_rx_block, mem_enq_block, mem_kthread_block, mem_err_block]
  constructor
  · intro hmem
    rcases hmem with h | (⟨j, hj, hp, h⟩ | h) | ⟨tc, htc, hmem2⟩ |
      (⟨j, hj, hp, h⟩ | h) | (⟨j, hj, hp, h⟩ | h)
    · simp at h
    · obtain ⟨h1, h2, h3, h4⟩ := Row.rxCpu.inj h
      subst h1
      exact ⟨hj, hp, h2, h3, h4⟩
    · simp at h
    · rcases (mem_enq_block_for n c p tc _).mp hmem2 with ⟨j, hj, hp, h⟩ | ⟨hp, h⟩ <;> simp at h
    · simp at h
    · simp at h
    · simp at h
    · simp at h
  · rintro ⟨hi, hp, rfl, rfl, rfl⟩
    exact Or.inr (Or.inl (Or.inl ⟨i, hi, hp, rfl⟩))

theorem rxTotal_mem_iff (n : Nat) (c p : stats_record) (ppsv : Nat) (d : DropCol) (t : ℚ) :
    Row.rxTotal ppsv d t ∈ stats_print n c p ↔
      (ppsv = rxTotalPps c p ∧ d = DropCol.nanText ∧ t = rxPeriod c p) := by
  rw [mem_stats_print, mem_rx_block, mem_enq_block, mem_kthread_block, mem_err_block]
  constructor
  · intro hmem
    rcases hmem with h | (⟨j, hj, hp, h⟩ | h) | ⟨tc, htc, hmem2⟩ |
      (⟨j, hj, hp, h⟩ | h) | (⟨j, hj, hp, h⟩ | h)
    · simp at h
    · simp at h
    · obtain ⟨h1, h2, h3⟩ := Row.rxTotal.inj h
      exact ⟨h1, h2, h3⟩
    · rcases (mem_enq_block_for n c p tc _).mp hmem2 with ⟨j, hj, hp, h⟩ | ⟨hp, h⟩ <;> simp at h
    · simp at h
    · simp at h
    · simp at h
    · simp at h
  · rintro ⟨rfl, rfl, rfl⟩
    exact Or.inr (Or.inl (Or.inr rfl))

theorem enqCpu_mem_iff (n : Nat) (c p : stats_record) (i tc ppsv : Nat) (d : DropCol) (t : ℚ) :
    Row.enqCpu i tc ppsv d t ∈ stats_print n c p ↔
      (tc < MAX_CPUS ∧ i < n ∧ 0 < enqCpuPps c p tc i ∧ ppsv = enqCpuPps c p tc i
        ∧ d = DropCol.rate (enqCpuDrop c p tc i) ∧ t = enqPeriod c p tc) := by
  rw [mem_stats_print, mem_rx_block, mem_enq_block, mem_kthread_block, mem_err_block]
  constructor
  · intro hmem
    rcases hmem with h | (⟨j, hj, hp, h⟩ | h) | ⟨tc2, htc, hmem2⟩ |
      (⟨j, hj, hp, h⟩ | h) | (⟨j, hj, hp, h⟩ | h)
    · simp at h
    · simp at h
    · simp at h
    · rcases (mem_enq_block_for n c p tc2 _).mp hmem2 with ⟨j, hj, hp, h⟩ | ⟨hp, h⟩
      · obtain ⟨h1, h2, h3, h4, h5⟩ := Row.enqCpu.inj h
        subst h1; subst h2
        exact ⟨htc, hj, hp, h3, h4, h5⟩
      · simp at h
    · simp at h
    · simp at h
    · simp at h
    · simp at h
  · rintro ⟨htc, hi, hp, rfl, rfl, rfl⟩
    exact Or.inr (Or.inr (Or.inl ⟨tc, htc,
      (mem_enq_block_for n c p tc _).mpr (Or.inl ⟨i, hi, hp, rfl⟩)⟩))

theorem enqTotal_mem_iff (n : Nat) (c p : stats_record) (tc ppsv : Nat) (d : DropCol) (t : ℚ) :
    Row.enqTotal tc ppsv d t ∈ stats_print n c p ↔
      (tc < MAX_CPUS ∧ 0 < enqTotalPps c p tc ∧ ppsv = enqTotalPps c p tc
        ∧ d = DropCol.rate (enqTotalDrop c p tc) ∧ t = enqPeriod c p tc) := by
  rw [mem_stats_print, mem_rx_block, mem_enq_block, mem_kthread_block, mem_err_block]
  constructor
  · intro hmem
    rcases hmem with h | (⟨j, hj, hp, h⟩ | h) | ⟨tc2, htc, hmem2⟩ |
      (⟨j, hj, hp, h⟩ | h) | (⟨j, hj, hp, h⟩ | h)
    · simp at h
    · simp at h
    · simp at h
    · rcases (mem_enq_block_for n c p tc2 _).mp hmem2 with ⟨j, hj, hp, h⟩ | ⟨hp, h⟩
      · simp at h
      · obtain ⟨h1, h2, h3, h4⟩ := Row.enqTotal.inj h
        subst h1
        exact ⟨htc, hp, h2, h3, h4⟩
    · simp at h
    · simp at h
    · simp at h
    · simp at h
  · rintro ⟨htc, hp, rfl, rfl, rfl⟩
    exact Or.inr (Or.inr (Or.inl ⟨tc, htc,
      (mem_enq_block_for n c p tc _).mpr (Or.inr ⟨hp, rfl⟩)⟩))

theorem kthreadCpu_mem_iff (n : Nat) (c p : stats_record) (i ppsv : Nat) (d : DropCol) (t : ℚ) :
    Row.kthreadCpu i ppsv d t ∈ stats_print n c p ↔
      (i < n ∧ 0 < ktCpuPps c p i ∧ ppsv = ktCpuPps c p i
        ∧ d = DropCol.rate (ktCpuDrop c p i) ∧ t = ktPeriod c p) := by
  rw [mem_stats_print, mem_rx_block, mem_enq_block, mem_kthread_block, mem_err_block]
  constructor
  · intro hmem
    rcases hmem with h | (⟨j, hj, hp, h⟩ | h) | ⟨tc, htc, hmem2⟩ |
      (⟨j, hj, hp, h⟩ | h) | (⟨j, hj, hp, h⟩ | h)
    · simp at h
    · simp at h
    · simp at h
    · rcases (mem_enq_block_for n c p tc _).mp hmem2 with ⟨j, hj, hp, h⟩ | ⟨hp, h⟩ <;> simp at h
    · obtain ⟨h1, h2, h3, h4⟩ := Row.kthreadCpu.inj h
      subst h1
      exact ⟨hj, hp, h2, h3, h4⟩
    · simp at h
    · simp at h
    · simp at h
  · rintro ⟨hi, hp, rfl, rfl, rfl⟩
    exact Or.inr (Or.inr (Or.inr (Or.inl (Or.inl ⟨i, hi, hp, rfl⟩))))

theorem kthreadTotal_mem_iff (n : Nat) (c p : stats_record) (ppsv : Nat) (d : DropCol) (t : ℚ) :
    Row.kthreadTotal ppsv d t ∈ stats_print n c p ↔
      (ppsv = ktTotalPps c p ∧ d = DropCol.rate (ktTotalDrop c p) ∧ t = ktPeriod c p) := by
  rw [mem_stats_print, mem_rx_block, mem_enq_block, mem_kthread_block, mem_err_block]
  constructor
  · intro hmem
    rcases hmem with h | (⟨j, hj, hp, h⟩ | h) | ⟨tc, htc, hmem2⟩ |
      (⟨j, hj, hp, h⟩ | h) | (⟨j, hj, hp, h⟩ | h)
    · simp at h
    · simp at h
    · simp at h
    · rcases (mem_enq_block_for n c p tc _).mp hmem2 with ⟨j, hj, hp, h⟩ | ⟨hp, h⟩ <;> simp at h
    · simp at h
    · obtain ⟨h1, h2, h3⟩ := Row.kthreadTotal.inj h
      exact ⟨h1, h2, h3⟩
    · simp at h
    · simp at h
  · rintro ⟨rfl, rfl, rfl⟩
    exact Or.inr (Or.inr (Or.inr (Or.inl (Or.inr rfl))))

theorem errCpu_mem_iff (n : Nat) (c p : stats_record) (i ppsv : Nat) (d : DropCol) (t : ℚ) :
    Row.errCpu i ppsv d t ∈ stats_print n c p ↔
      (i < n ∧ 0 < errCpuPps c p i ∧ ppsv = errCpuPps c p i
        ∧ d = DropCol.rate (errCpuDrop c p i) ∧ t = errPeriod c p) := by
  rw [mem_stats_print, mem_rx_block, mem_enq_block, mem_kthread_block, mem_err_block]
  constructor
  · intro hmem
    rcases hmem with h | (⟨j, hj, hp, h⟩ | h) | ⟨tc, htc, hmem2⟩ |
      (⟨j, hj, hp, h⟩ | h) | (⟨j, hj, hp, h⟩ | h)
    · simp at h
    · simp at h
    · simp at h
    · rcases (mem_enq_block_for n c p tc _).mp hmem2 with ⟨j, hj, hp, h⟩ | ⟨hp, h⟩ <;> simp at h
    · simp at h
    · simp at h
    · obtain ⟨h1, h2, h3, h4⟩ := Row.errCpu.inj h
      subst h1
      exact ⟨hj, hp, h2, h3, h4⟩
    · simp at h
  · rintro ⟨hi, hp, rfl, rfl, rfl⟩
    exact Or.inr (Or.inr (Or.inr (Or.inr (Or.inl ⟨i, hi, hp, rfl⟩))))

theorem errTotal_mem_iff (n : Nat) (c p : stats_record) (ppsv : Nat) (d : DropCol) (t : ℚ) :
    Row.errTotal ppsv d t ∈ stats_print n c p ↔
      (ppsv = errTotalPps c p ∧ d = DropCol.rate (errTotalDrop c p) ∧ t = errPeriod c p) := by
  rw [mem_stats_print, mem_rx_block, mem_enq_block, mem_kthread_block, mem_err_block]
  constructor
  · intro hmem
    rcases hmem with h | (⟨j, hj, hp, h⟩ | h) | ⟨tc, htc, hmem2⟩ |
      (⟨j, hj, hp, h⟩ | h) | (⟨j, hj, hp, h⟩ | h)
    · simp at h
    · simp at h
    · simp at h
    · rcases (mem_enq_block_for n c p tc _).mp hmem2 with ⟨j, hj, hp, h⟩ | ⟨hp, h⟩ <;> simp at h
    · simp at h
    · simp at h
    · simp at h
    · obtain ⟨h1, h2, h3⟩ := Row.errTotal.inj h
      exact ⟨h1, h2, h3⟩
  · rintro ⟨rfl, rfl, rfl⟩
    exact Or.inr (Or.inr (Or.inr (Or.inr (Or.inr rfl))))

/- ### Table-level view of a successful collection cycle -/

/-- Bound under which a `Table` identifier denotes a table the C code actually
reads (`enq` keys run from 0 to MAX_CPUS-1). -/
def tableWF : Table → Prop
  | Table.enq i => i < MAX_CPUS
  | _ => True

theorem stats_collect_enq_length {src : Table → Option (List datarec)}
    {clock : Table → Option Nat} {rec_ out : stats_record}
    (h : stats_collect src clock rec_ = Except.ok out) :
    out.enq.length = rec_.enq.length := by
  obtain ⟨rx, re, enq1, kt, _, _, h3, _, rfl⟩ := stats_collect_ok h
  exact (collect_enq_ok src clock rec_.enq 0 enq1 h3).1

theorem stats_collect_table {src : Table → Option (List datarec)}
    {clock : Table → Option Nat} {rec_ out : stats_record}
    (hlen : rec_.enq.length = MAX_CPUS)
    (h : stats_collect src clock rec_ = Except.ok out) :
    ∀ tbl : Table, tableWF tbl → ∃ flag,
      map_collect_percpu (src tbl) (clock tbl) (tgetD tbl rec_)
        = Except.ok (flag, tgetD tbl out) := by
  obtain ⟨rx, re, enq1, kt, h1, h2, h3, h4, rfl⟩ := stats_collect_ok h
  intro tbl hwf
  cases tbl with
  | rx =>
    refine ⟨rx.1, ?_⟩
    show map_collect_percpu (src Table.rx) (clock Table.rx) rec_.rx_cnt
      = Except.ok (rx.1, rx.2)
    rw [Prod.mk.eta]
    exact h1
  | redirErr =>
    refine ⟨re.1, ?_⟩
    show map_collect_percpu (src Table.redirErr) (clock Table.redirErr) rec_.redir_err
      = Except.ok (re.1, re.2)
    rw [Prod.mk.eta]
    exact h2
  | kthread =>
    refine ⟨kt.1, ?_⟩
    show map_collect_percpu (src Table.kthread) (clock Table.kthread) rec_.kthread
      = Except.ok (kt.1, kt.2)
    rw [Prod.mk.eta]
    exact h4
  | enq i =>
    obtain ⟨_, hget⟩ := collect_enq_ok src clock rec_.enq 0 enq1 h3
    have hi : i < rec_.enq.length := by rw [hlen]; exact hwf
    obtain ⟨flag, hm⟩ := hget i hi
    simp only [Nat.zero_add] at hm
    exact ⟨flag, hm⟩

theorem stats_collect_stale {src : Table → Option (List datarec)}
    {clock : Table → Option Nat} {rec_ out : stats_record} {tbl : Table}
    (hsrc : src tbl = none) (hlen : rec_.enq.length = MAX_CPUS)
    (h : stats_collect src clock rec_ = Except.ok out) (hwf : tableWF tbl) :
    tgetD tbl out = tgetD tbl rec_ := by
  obtain ⟨flag, hm⟩ := stats_collect_table hlen h tbl hwf
  rw [hsrc, map_collect_percpu_none] at hm
  exact (congrArg Prod.snd (Except.ok.inj hm)).symm

theorem stats_poll_step_ok (n : Nat) (src : Table → Option (List datarec))
    (clock : Table → Option Nat) (st : stats_record × stats_record) (c : stats_record)
    (h : stats_collect src clock st.2 = Except.ok c) :
    stats_poll_step n src clock st = Except.ok (stats_print n c st.1, (c, st.1)) := by
  simp only [stats_poll_step, swap]
  rw [h]

/- ### Blocks collapse when the two snapshots agree on the block's table -/

theorem enq_block_for_eq (n : Nat) (c p : stats_record) (tc : Nat)
    (h : c.enq.getD tc record.nil = p.enq.getD tc record.nil) :
    enq_block_for n c p tc = [] := by
  have hper : enqPeriod c p tc = 0 := by rw [enqPeriod, h]; exact calc_period_self _
  have hcpu : ∀ i, i < n → enqCpuPps c p tc i = 0 := fun i _ => by
    rw [enqCpuPps, hper]; exact calc_pps_nonpos _ _ le_rfl
  have htot : enqTotalPps c p tc = 0 := by
    rw [enqTotalPps, hper]; exact calc_pps_nonpos _ _ le_rfl
  rw [enq_block_for, filterMap_if_nil hcpu, htot]
  simp

theorem enq_block_eq (n : Nat) (c p : stats_record)
    (h : ∀ tc, tc < MAX_CPUS → c.enq.getD tc record.nil = p.enq.getD tc record.nil) :
    enq_block n c p = [] := by
  rw [enq_block, List.flatMap_eq_nil_iff]
  intro tc htc
  exact enq_block_for_eq n c p tc (h tc (List.mem_range.mp htc))

theorem kthread_block_eq (n : Nat) (c p : stats_record) (h : c.kthread = p.kthread) :
    kthread_block n c p = [Row.kthreadTotal 0 (DropCol.rate 0) 0] := by
  have hper : ktPeriod c p = 0 := by rw [ktPeriod, h]; exact calc_period_self _
  have hcpu : ∀ i, i < n → ktCpuPps c p i = 0 := fun i _ => by
    rw [ktCpuPps, hper]; exact calc_pps_nonpos _ _ le_rfl
  have htot : ktTotalPps c p = 0 := by
    rw [ktTotalPps, hper]; exact calc_pps_nonpos _ _ le_rfl
  have hdrop : ktTotalDrop c p = 0 := by
    rw [ktTotalDrop, hper]; exact calc_drop_pps_nonpos _ _ le_rfl
  rw [kthread_block, filterMap_if_nil hcpu, htot, hdrop, hper, List.nil_append]

theorem err_block_eq (n : Nat) (c p : stats_record) (h : c.redir_err = p.redir_err) :
    err_block n c p = [Row.errTotal 0 (DropCol.rate 0) 0] := by
  have hper : errPeriod c p = 0 := by rw [errPeriod, h]; exact calc_period_self _
  have hcpu : ∀ i, i < n → errCpuPps c p i = 0 := fun i _ => by
    rw [errCpuPps, hper]; exact calc_pps_nonpos _ _ le_rfl
  have htot : errTotalPps c p = 0 := by
    rw [errTotalPps, hper]; exact calc_pps_nonpos _ _ le_rfl
  have hdrop : errTotalDrop c p = 0 := by
    rw [errTotalDrop, hper]; exact calc_drop_pps_nonpos _ _ le_rfl
  rw [err_block, filterMap_if_nil hcpu, htot, hdrop, hper, List.nil_append]

/- ### Concrete inputs used by the test scenarios and witnesses -/

/-- Current XDP-RX record of spec scenario 1. -/
def rxCurr : record := ⟨1000000000, ⟨250, 0⟩, [⟨200, 0⟩, ⟨50, 0⟩, ⟨0, 0⟩, ⟨0, 0⟩]⟩

/-- Previous XDP-RX record of spec scenario 1. -/
def rxPrev : record := ⟨0, ⟨100, 0⟩, [⟨100, 0⟩, ⟨0, 0⟩, ⟨0, 0⟩, ⟨0, 0⟩]⟩

/-- An all-zero record for a 4-CPU host. -/
def zrec4 : record := ⟨0, ⟨0, 0⟩, List.replicate 4 ⟨0, 0⟩⟩

/-- Current snapshot of spec scenario 1. -/
def snapCurr : stats_record := ⟨rxCurr, zrec4, zrec4, List.replicate MAX_CPUS zrec4⟩

/-- Previous snapshot of spec scenario 1. -/
def snapPrev : stats_record := ⟨rxPrev, zrec4, zrec4, List.replicate MAX_CPUS zrec4⟩

theorem rxPeriod_scenario : rxPeriod snapCurr snapPrev = 1 := by
  show calc_period rxCurr rxPrev = 1
  have h : u64sub rxCurr.timestamp rxPrev.timestamp = 1000000000 := by decide
  rw [calc_period]
  simp only [h]
  norm_num [NANOSEC_PER_SEC]

theorem rxCpuPps_scenario_0 : rxCpuPps snapCurr snapPrev 0 = 100 := by
  show calc_pps ⟨200, 0⟩ ⟨100, 0⟩ (rxPeriod snapCurr snapPrev) = 100
  rw [rxPeriod_scenario]
  have h : u64sub 200 100 = 100 := by decide
  rw [calc_pps]
  simp only [h]
  norm_num
  decide

theorem rxCpuPps_scenario_1 : rxCpuPps snapCurr snapPrev 1 = 50 := by
  show calc_pps ⟨50, 0⟩ ⟨0, 0⟩ (rxPeriod snapCurr snapPrev) = 50
  rw [rxPeriod_scenario]
  have h : u64sub 50 0 = 50 := by decide
  rw [calc_pps]
  simp only [h]
  norm_num
  decide

theorem rxCpuPps_scenario_2 : rxCpuPps snapCurr snapPrev 2 = 0 := by
  show calc_pps ⟨0, 0⟩ ⟨0, 0⟩ (rxPeriod snapCurr snapPrev) = 0
  rw [rxPeriod_scenario]
  have h : u64sub 0 0 = 0 := by decide
  rw [calc_pps]
  simp only [h]
  norm_num

theorem rxCpuPps_scenario_3 : rxCpuPps snapCurr snapPrev 3 = 0 := by
  show calc_pps ⟨0, 0⟩ ⟨0, 0⟩ (rxPeriod snapCurr snapPrev) = 0
  rw [rxPeriod_scenario]
  have h : u64sub 0 0 = 0 := by decide
  rw [calc_pps]
  simp only [h]
  norm_num

theorem rxTotalPps_scenario : rxTotalPps snapCurr snapPrev = 150 := by
  show calc_pps ⟨250, 0⟩ ⟨100, 0⟩ (rxPeriod snapCurr snapPrev) = 150
  rw [rxPeriod_scenario]
  have h : u64sub 250 100 = 150 := by decide
  rw [calc_pps]
  simp only [h]
  norm_num
  decide

theorem rx_block_scenario :
    rx_block 4 snapCurr snapPrev =
      [Row.rxCpu 0 100 DropCol.nanText 1, Row.rxCpu 1 50 DropCol.nanText 1,
       Row.rxTotal 150 DropCol.nanText 1] := by
  rw [rx_block, show List.range 4 = [0, 1, 2, 3] from rfl]
  simp only [List.filterMap_cons, List.filterMap_nil, rxCpuPps_scenario_0,
    rxCpuPps_scenario_1, rxCpuPps_scenario_2, rxCpuPps_scenario_3,
    rxTotalPps_scenario, rxPeriod_scenario]
  norm_num

/- ### Claim theorems -/

/-- C1: for monotone u64 inputs, `calc_period` computes
`(curr.timestamp - prev.timestamp) / 1e9` seconds; `calc_pps` computes
`floor((curr.processed - prev.processed) / period)` when the period is
positive and 0 otherwise; `calc_drop_pps` is the identical formula on the
`dropped` field; and whenever the computed period is nonpositive (in
particular for equal timestamps) every derived rate for the pair is 0. -/
theorem claim_C1 (r p : record) (a b : datarec) (per : ℚ)
    (hts : p.timestamp ≤ r.timestamp) (htlt : r.timestamp < U64)
    (hproc : b.processed ≤ a.processed) (hplt : a.processed < U64)
    (hdrop : b.dropped ≤ a.dropped) (hdlt : a.dropped < U64) :
    calc_period r p = ((r.timestamp - p.timestamp : Nat) : ℚ) / ((NANOSEC_PER_SEC : Nat) : ℚ)
    ∧ (0 < per →
        calc_pps a b per = (⌊((a.processed - b.processed : Nat) : ℚ) / per⌋).toNat)
    ∧ (0 < per →
        calc_drop_pps a b per = (⌊((a.dropped - b.dropped : Nat) : ℚ) / per⌋).toNat)
    ∧ (per ≤ 0 → calc_pps a b per = 0 ∧ calc_drop_pps a b per = 0)
    ∧ (calc_period r p ≤ 0 →
        calc_pps a b (calc_period r p) = 0 ∧ calc_drop_pps a b (calc_period r p) = 0)
    ∧ (r.timestamp = p.timestamp → calc_period r p = 0) := by
  have hsub : u64sub r.timestamp p.timestamp = r.timestamp - p.timestamp :=
    u64sub_of_le hts htlt
  refine ⟨?_, ?_, ?_, ?_, ?_, ?_⟩
  · rw [calc_period]
    simp only [hsub]
    rcases Nat.eq_zero_or_pos (r.timestamp - p.timestamp) with h0 | hpos
    · rw [h0, if_neg (by omega)]
      simp
    · rw [if_pos hpos]
  · intro hper
    rw [calc_pps, if_pos hper, u64sub_of_le hproc hplt]
  · intro hper
    rw [calc_drop_pps, if_pos hper, u64sub_of_le hdrop hdlt]
  · intro hper
    exact ⟨calc_pps_nonpos _ _ hper, calc_drop_pps_nonpos _ _ hper⟩
  · intro hper
    exact ⟨calc_pps_nonpos _ _ hper, calc_drop_pps_nonpos _ _ hper⟩
  · intro he
    rw [calc_period]
    simp only [he, u64sub_self]
    simp

/-- Witness for C1 at a concrete input: prev timestamp 1 s, curr timestamp 2 s. -/
theorem claim_C1_witness :
    calc_period ⟨2000000000, ⟨300, 7⟩, []⟩ ⟨1000000000, ⟨120, 3⟩, []⟩
      = (((2000000000 : Nat) - 1000000000 : Nat) : ℚ) / ((NANOSEC_PER_SEC : Nat) : ℚ) :=
  (claim_C1 ⟨2000000000, ⟨300, 7⟩, []⟩ ⟨1000000000, ⟨120, 3⟩, []⟩
    ⟨300, 7⟩ ⟨120, 3⟩ 1 (by decide) (by decide) (by decide) (by decide)
    (by decide) (by decide)).1

/-- C2: after a successful `map_collect_percpu`, the record's `total` fields
equal the u64 sums of its per-CPU fields. -/
theorem claim_C2 (values : List datarec) (clock : Option Nat) (rec_ out : record)
    (flag : Bool)
    (h : map_collect_percpu (some values) clock rec_ = Except.ok (flag, out)) :
    flag = true
    ∧ out.cpu = values
    ∧ out.total.processed = (out.cpu.map datarec.processed).sum % U64
    ∧ out.total.dropped = (out.cpu.map datarec.dropped).sum % U64 := by
  cases clock with
  | none => exact absurd h (by simp [map_collect_percpu, gettime])
  | some t =>
    simp only [map_collect_percpu, gettime] at h
    injection h with h2
    injection h2 with hf ho
    subst ho
    exact ⟨hf.symm, rfl, foldl_sumWrap_eq_sum_mod _, foldl_sumWrap_eq_sum_mod _⟩

/-- Witness for C2 at a concrete input whose sum wraps modulo `2^64`. -/
theorem claim_C2_witness :
    (⟨5, ⟨2, 1⟩, [⟨3, 1⟩, ⟨18446744073709551615, 0⟩]⟩ : record).total.processed
      = (((⟨5, ⟨2, 1⟩, [⟨3, 1⟩, ⟨18446744073709551615, 0⟩]⟩ : record).cpu.map
          datarec.processed).sum) % U64 :=
  (claim_C2 [⟨3, 1⟩, ⟨18446744073709551615, 0⟩] (some 5) record.nil
    ⟨5, ⟨2, 1⟩, [⟨3, 1⟩, ⟨18446744073709551615, 0⟩]⟩ true (by rfl)).2.2.1

/-- C7: with `curr.processed < prev.processed` (a counter reset) and a
positive period, the u64 subtraction underflows: the delta becomes
`2^64 - (prev - curr)` and `calc_pps` returns a spurious huge value (larger
than the whole current counter) rather than an error or a clamped 0. -/
theorem claim_C7 (r p : datarec) (per : ℚ)
    (h1 : r.processed < p.processed) (h2 : p.processed < U64) (hper : 0 < per) :
    calc_pps r p per
      = (⌊((U64 - (p.processed - r.processed) : Nat) : ℚ) / per⌋).toNat
    ∧ calc_pps r p 1 = U64 - (p.processed - r.processed)
    ∧ r.processed < calc_pps r p 1 := by
  have hsub : u64sub r.processed p.processed = U64 - (p.processed - r.processed) :=
    u64sub_of_lt h1 h2
  have hone : calc_pps r p 1 = U64 - (p.processed - r.processed) := by
    rw [calc_pps, if_pos one_pos, hsub, div_one, Int.floor_natCast, Int.toNat_natCast]
  refine ⟨?_, hone, ?_⟩
  · rw [calc_pps, if_pos hper, hsub]
  · rw [hone]
    rw [U64_eq] at h2 ⊢
    omega

/-- Witness for C7: counter reset from 1000 to 10 over a 1-second period. -/
theorem claim_C7_witness :
    calc_pps ⟨10, 0⟩ ⟨1000, 0⟩ 1 = U64 - (1000 - 10) :=
  (claim_C7 ⟨10, 0⟩ ⟨1000, 0⟩ 1 (by decide) (by decide) one_pos).2.1

/-- C8: for a fixed `prev` and a fixed positive period, `calc_pps` is
monotone in the processed delta (no underflow in either delta). -/
theorem claim_C8 (a b p : datarec) (per : ℚ)
    (hper : 0 < per) (h1 : p.processed ≤ b.processed)
    (h2 : b.processed ≤ a.processed) (h3 : a.processed < U64) :
    calc_pps b p per ≤ calc_pps a p per := by
  rw [calc_pps, calc_pps, if_pos hper, if_pos hper,
    u64sub_of_le h1 (by omega), u64sub_of_le (le_trans h1 h2) h3]
  refine Int.toNat_le_toNat (Int.floor_le_floor ?_)
  refine div_le_div_of_nonneg_right ?_ hper.le
  exact_mod_cast Nat.sub_le_sub_right h2 p.processed

/-- Witness for C8: delta 90 vs delta 40 over a 2-second period. -/
theorem claim_C8_witness :
    calc_pps ⟨50, 0⟩ ⟨10, 0⟩ 2 ≤ calc_pps ⟨100, 0⟩ ⟨10, 0⟩ 2 :=
  claim_C8 ⟨100, 0⟩ ⟨50, 0⟩ ⟨10, 0⟩ 2 (by norm_num) (by decide) (by decide) (by decide)

/-- C3: `stats_print` emits blocks in the fixed order RX, enqueue targets in
ascending index, kthread, redirect_err (captured by the monotone block index
along the output); a per-CPU row appears iff its pps is nonzero; the RX,
kthread and error total rows are unconditional while an enqueue total row
appears iff its pps is nonzero; and on two identical snapshots only the
header and the three unconditional total rows render, with pps 0. -/
theorem claim_C3 (n : Nat) (c p s : stats_record) :
    ((stats_print n c p).map blockIdx).Pairwise (· ≤ ·)
    ∧ (∀ i ppsv d t, Row.rxCpu i ppsv d t ∈ stats_print n c p ↔
        (i < n ∧ 0 < rxCpuPps c p i ∧ ppsv = rxCpuPps c p i ∧ d = DropCol.nanText
          ∧ t = rxPeriod c p))
    ∧ (∀ i tc ppsv d t, Row.enqCpu i tc ppsv d t ∈ stats_print n c p ↔
        (tc < MAX_CPUS ∧ i < n ∧ 0 < enqCpuPps c p tc i ∧ ppsv = enqCpuPps c p tc i
          ∧ d = DropCol.rate (enqCpuDrop c p tc i) ∧ t = enqPeriod c p tc))
    ∧ (∀ i ppsv d t, Row.kthreadCpu i ppsv d t ∈ stats_print n c p ↔
        (i < n ∧ 0 < ktCpuPps c p i ∧ ppsv = ktCpuPps c p i
          ∧ d = DropCol.rate (ktCpuDrop c p i) ∧ t = ktPeriod c p))
    ∧ (∀ i ppsv d t, Row.errCpu i ppsv d t ∈ stats_print n c p ↔
        (i < n ∧ 0 < errCpuPps c p i ∧ ppsv = errCpuPps c p i
          ∧ d = DropCol.rate (errCpuDrop c p i) ∧ t = errPeriod c p))
    ∧ Row.rxTotal (rxTotalPps c p) DropCol.nanText (rxPeriod c p) ∈ stats_print n c p
    ∧ Row.kthreadTotal (ktTotalPps c p) (DropCol.rate (ktTotalDrop c p)) (ktPeriod c p)
        ∈ stats_print n c p
    ∧ Row.errTotal (errTotalPps c p) (DropCol.rate (errTotalDrop c p)) (errPeriod c p)
        ∈ stats_print n c p
    ∧ (∀ tc ppsv d t, Row.enqTotal tc ppsv d t ∈ stats_print n c p ↔
        (tc < MAX_CPUS ∧ 0 < enqTotalPps c p tc ∧ ppsv = enqTotalPps c p tc
          ∧ d = DropCol.rate (enqTotalDrop c p tc) ∧ t = enqPeriod c p tc))
    ∧ stats_print n s s =
        [Row.header, Row.rxTotal 0 DropCol.nanText 0,
         Row.kthreadTotal 0 (DropCol.rate 0) 0, Row.errTotal 0 (DropCol.rate 0) 0] := by
  refine ⟨stats_print_ordered n c p,
    fun i ppsv d t => rxCpu_mem_iff n c p i ppsv d t,
    fun i tc ppsv d t => enqCpu_mem_iff n c p i tc ppsv d t,
    fun i ppsv d t => kthreadCpu_mem_iff n c p i ppsv d t,
    fun i ppsv d t => errCpu_mem_iff n c p i ppsv d t,
    (rxTotal_mem_iff n c p _ _ _).mpr ⟨rfl, rfl, rfl⟩,
    (kthreadTotal_mem_iff n c p _ _ _).mpr ⟨rfl, rfl, rfl⟩,
    (errTotal_mem_iff n c p _ _ _).mpr ⟨rfl, rfl, rfl⟩,
    fun tc ppsv d t => enqTotal_mem_iff n c p tc ppsv d t,
    stats_print_self n s⟩

/-- Witness for C3: the identical-snapshot rendering at a concrete snapshot. -/
theorem claim_C3_witness :
    stats_print 4 snapCurr snapCurr =
      [Row.header, Row.rxTotal 0 DropCol.nanText 0,
       Row.kthreadTotal 0 (DropCol.rate 0) 0, Row.errTotal 0 (DropCol.rate 0) 0] :=
  (claim_C3 4 snapCurr snapCurr snapCurr).2.2.2.2.2.2.2.2.2

/-- C9: spec scenario 1 — NCPU 4, RX timestamps 0 and 1e9 ns, previous
processed `[100,0,0,0]`, current `[200,50,0,0]`: period 1 s, per-CPU pps
`[100,50,0,0]`, RX rows for CPUs 0,1 only, RX total pps 150 (the other
blocks, fed with identical data, contribute only their unconditional total
rows). -/
theorem claim_C9 :
    rxPeriod snapCurr snapPrev = 1
    ∧ (List.range 4).map (rxCpuPps snapCurr snapPrev) = [100, 50, 0, 0]
    ∧ rxTotalPps snapCurr snapPrev = 150
    ∧ stats_print 4 snapCurr snapPrev =
        [Row.header,
         Row.rxCpu 0 100 DropCol.nanText 1, Row.rxCpu 1 50 DropCol.nanText 1,
         Row.rxTotal 150 DropCol.nanText 1,
         Row.kthreadTotal 0 (DropCol.rate 0) 0, Row.errTotal 0 (DropCol.rate 0) 0] := by
  refine ⟨rxPeriod_scenario, ?_, rxTotalPps_scenario, ?_⟩
  · rw [show List.range 4 = [0, 1, 2, 3] from rfl]
    simp only [List.map_cons, List.map_nil, rxCpuPps_scenario_0, rxCpuPps_scenario_1,
      rxCpuPps_scenario_2, rxCpuPps_scenario_3]
  · have henq : enq_block 4 snapCurr snapPrev = [] :=
      enq_block_eq 4 _ _ (fun tc _ => rfl)
    have hkt : kthread_block 4 snapCurr snapPrev = [Row.kthreadTotal 0 (DropCol.rate 0) 0] :=
      kthread_block_eq 4 _ _ rfl
    have herr : err_block 4 snapCurr snapPrev = [Row.errTotal 0 (DropCol.rate 0) 0] :=
      err_block_eq 4 _ _ rfl
    rw [stats_print, rx_block_scenario, henq, hkt, herr]
    rfl

/-- C10: every RX row (per-CPU and total) carries the literal `"(nan)"` in
the drop-pps column, while every row of the enqueue, kthread and error blocks
carries a computed drop rate there. -/
theorem claim_C10 (n : Nat) (c p : stats_record) :
    (∀ i ppsv d t, Row.rxCpu i ppsv d t ∈ stats_print n c p → d = DropCol.nanText)
    ∧ (∀ ppsv d t, Row.rxTotal ppsv d t ∈ stats_print n c p → d = DropCol.nanText)
    ∧ Row.rxTotal (rxTotalPps c p) DropCol.nanText (rxPeriod c p) ∈ stats_print n c p
    ∧ (∀ i tc ppsv d t, Row.enqCpu i tc ppsv d t ∈ stats_print n c p →
        d = DropCol.rate (enqCpuDrop c p tc i))
    ∧ (∀ tc ppsv d t, Row.enqTotal tc ppsv d t ∈ stats_print n c p →
        d = DropCol.rate (enqTotalDrop c p tc))
    ∧ (∀ i ppsv d t, Row.kthreadCpu i ppsv d t ∈ stats_print n c p →
        d = DropCol.rate (ktCpuDrop c p i))
    ∧ (∀ ppsv d t, Row.kthreadTotal ppsv d t ∈ stats_print n c p →
        d = DropCol.rate (ktTotalDrop c p))
    ∧ (∀ i ppsv d t, Row.errCpu i ppsv d t ∈ stats_print n c p →
        d = DropCol.rate (errCpuDrop c p i))
    ∧ (∀ ppsv d t, Row.errTotal ppsv d t ∈ stats_print n c p →
        d = DropCol.rate (errTotalDrop c p)) := by
  refine ⟨?_, ?_, (rxTotal_mem_iff n c p _ _ _).mpr ⟨rfl, rfl, rfl⟩, ?_, ?_, ?_, ?_, ?_, ?_⟩
  · intro i ppsv d t h
    exact ((rxCpu_mem_iff n c p i ppsv d t).mp h).2.2.2.1
  · intro ppsv d t h
    exact ((rxTotal_mem_iff n c p ppsv d t).mp h).2.1
  · intro i tc ppsv d t h
    exact ((enqCpu_mem_iff n c p i tc ppsv d t).mp h).2.2.2.2.1
  · intro tc ppsv d t h
    exact ((enqTotal_mem_iff n c p tc ppsv d t).mp h).2.2.2.1
  · intro i ppsv d t h
    exact ((kthreadCpu_mem_iff n c p i ppsv d t).mp h).2.2.2.1
  · intro ppsv d t h
    exact ((kthreadTotal_mem_iff n c p ppsv d t).mp h).2.1
  · intro i ppsv d t h
    exact ((errCpu_mem_iff n c p i ppsv d t).mp h).2.2.2.1
  · intro ppsv d t h
    exact ((errTotal_mem_iff n c p ppsv d t).mp h).2.1

/-- Witness for C10: the RX total row of scenario 1 carries the `"(nan)"`
drop column. -/
theorem claim_C10_witness :
    (DropCol.nanText : DropCol) = DropCol.nanText :=
  (claim_C10 4 snapCurr snapPrev).2.1 (rxTotalPps snapCurr snapPrev) DropCol.nanText
    (rxPeriod snapCurr snapPrev) (claim_C10 4 snapCurr snapPrev).2.2.1

/-- An all-zero record for a 1-CPU host. -/
def zrec1 : record := ⟨0, ⟨0, 0⟩, [⟨0, 0⟩]⟩

/-- The record collected from a 1-CPU table reading `[⟨1,0⟩]` at time 7. -/
def crec1 : record := ⟨7, ⟨1, 0⟩, [⟨1, 0⟩]⟩

/-- A freshly allocated (all-zero) snapshot for a 1-CPU host. -/
def rec0 : stats_record := ⟨zrec1, zrec1, zrec1, List.replicate MAX_CPUS zrec1⟩

/-- A counter source failing exactly on the enqueue table for target 5. -/
def src0 : Table → Option (List datarec) :=
  fun tbl => if tbl = Table.enq 5 then none else some [⟨1, 0⟩]

/-- A clock that always reads 7 ns. -/
def clock0 : Table → Option Nat := fun _ => some 7

/-- The snapshot collected through `src0`/`clock0` from `rec0`: every table
fresh except the enqueue record for target 5, which keeps its old contents. -/
def out0 : stats_record :=
  ⟨crec1, crec1, crec1,
   [crec1, crec1, crec1, crec1, crec1, zrec1, crec1, crec1, crec1, crec1, crec1, crec1]⟩

/-- C4: when the lookup for one table fails, `map_collect_percpu` returns
`false` with that record entirely unchanged and raises no error; after a
successful `stats_collect` cycle the failing table's record is exactly its
stale previous value while every other table is freshly collected; and the
poll-loop iteration still renders the full report (including the three
unconditional total rows) and continues with the next state. -/
theorem claim_C4 (n : Nat) (src : Table → Option (List datarec))
    (clock : Table → Option Nat) (rec_ out prev0 : stats_record) (tbl : Table)
    (hsrc : src tbl = none) (hwf : tableWF tbl)
    (hlen : rec_.enq.length = MAX_CPUS)
    (hok : stats_collect src clock rec_ = Except.ok out) :
    (∀ r : record, map_collect_percpu (src tbl) (clock tbl) r = Except.ok (false, r))
    ∧ tgetD tbl out = tgetD tbl rec_
    ∧ (∀ tbl2 : Table, tableWF tbl2 → ∃ flag,
        map_collect_percpu (src tbl2) (clock tbl2) (tgetD tbl2 rec_)
          = Except.ok (flag, tgetD tbl2 out))
    ∧ stats_poll_step n src clock (prev0, rec_)
        = Except.ok (stats_print n out prev0, (out, prev0))
    ∧ Row.rxTotal (rxTotalPps out prev0) DropCol.nanText (rxPeriod out prev0)
        ∈ stats_print n out prev0
    ∧ Row.kthreadTotal (ktTotalPps out prev0) (DropCol.rate (ktTotalDrop out prev0))
        (ktPeriod out prev0) ∈ stats_print n out prev0
    ∧ Row.errTotal (errTotalPps out prev0) (DropCol.rate (errTotalDrop out prev0))
        (errPeriod out prev0) ∈ stats_print n out prev0 := by
  refine ⟨?_, stats_collect_stale hsrc hlen hok hwf, stats_collect_table hlen hok,
    stats_poll_step_ok n src clock (prev0, rec_) out hok,
    (rxTotal_mem_iff n out prev0 _ _ _).mpr ⟨rfl, rfl, rfl⟩,
    (kthreadTotal_mem_iff n out prev0 _ _ _).mpr ⟨rfl, rfl, rfl⟩,
    (errTotal_mem_iff n out prev0 _ _ _).mpr ⟨rfl, rfl, rfl⟩⟩
  intro r
  rw [hsrc]
  exact map_collect_percpu_none _ r

/-- Witness for C4: a source failing on the enqueue table for target 5
(spec scenario 3); the stale record for target 5 survives the cycle. -/
theorem claim_C4_witness :
    tgetD (Table.enq 5) out0 = tgetD (Table.enq 5) rec0 :=
  (claim_C4 1 src0 clock0 rec0 out0 rec0 (Table.enq 5)
    (by rfl) (show (5 : Nat) < MAX_CPUS by decide) (by decide) (by rfl)).2.1

/-- C5 counterexample: a `clock_gettime` failure during an otherwise normal
collection cycle terminates the process with `EXIT_FAIL` — a second fatal
error path inside the collection/rate/report cycle, distinct from the
memory-failure status, refuting the claim that the snapshot-allocation
failure is the only fatal path and every other in-cycle failure is
recoverable. -/
theorem claim_C5_counterexample :
    stats_collect (fun _ => some [⟨0, 0⟩]) (fun _ => none) rec0 = Except.error EXIT_FAIL
    ∧ EXIT_FAIL ≠ EXIT_FAIL_MEM ∧ EXIT_FAIL ≠ EXIT_OK :=
  ⟨rfl, by decide, by decide⟩

/-- C5 (amended): snapshot-allocation failure is fatal with the memory
status `EXIT_FAIL_MEM`; a failed map lookup inside the cycle is recoverable
(the record is left stale, no error is raised); but a clock-read failure
inside the cycle is a further fatal path, exiting with `EXIT_FAIL`. -/
theorem claim_C5 (n : Nat) (values : List datarec) (r : record) (clock : Option Nat) :
    alloc_record_per_cpu n false = Except.error EXIT_FAIL_MEM
    ∧ alloc_stats_record n false = Except.error EXIT_FAIL_MEM
    ∧ map_collect_percpu none clock r = Except.ok (false, r)
    ∧ map_collect_percpu (some values) none r = Except.error EXIT_FAIL
    ∧ EXIT_FAIL ≠ EXIT_FAIL_MEM :=
  ⟨rfl, rfl, map_collect_percpu_none clock r, rfl, by decide⟩

/-- C6: `swap` is a pure reference exchange — after one swap the buffer
previously reachable as current is reachable as previous with identical
contents and vice versa, swapping twice restores the original assignment,
and in the poll loop the buffer swapped into the previous slot is exactly
the old current snapshot. -/
theorem claim_C6 (n : Nat) (a b : stats_record) (src : Table → Option (List datarec))
    (clock : Table → Option Nat) (st : stats_record × stats_record) :
    swap a b = (b, a)
    ∧ (swap a b).1 = b ∧ (swap a b).2 = a
    ∧ swap (swap a b).1 (swap a b).2 = (a, b)
    ∧ (∀ c1, stats_collect src clock st.2 = Except.ok c1 →
        stats_poll_step n src clock st = Except.ok (stats_print n c1 st.1, (c1, st.1))) :=
  ⟨rfl, rfl, rfl, rfl, fun c1 h => stats_poll_step_ok n src clock st c1 h⟩

/-- Witness for C6: one poll iteration on a concrete state (all lookups
failing, so collection returns the buffer unchanged). -/
theorem claim_C6_witness :
    stats_poll_step 1 (fun _ => none) (fun _ => some 0) (rec0, rec0)
      = Except.ok (stats_print 1 rec0 rec0, (rec0, rec0)) :=
  (claim_C6 1 rec0 rec0 (fun _ => none) (fun _ => some 0) (rec0, rec0)).2.2.2.2 rec0 (by rfl)
